import Mathlib

/-
  Verification development for the RtMidi realtime MIDI input core:
  the fixed-capacity input message queue, the per-backend message
  assembly and delta-time stamping (WinMM `midiInputCallback`, ALSA
  `alsaMidiHandler`, JACK `jackProcessIn`), and the common error
  delivery routine `MidiApi::error`.

  Machine doubles are modelled as exact rationals (`Rat`); the unsigned
  machine subtractions `a - b` on DWORD / unsigned long long are
  modelled via `wrapSub` with the corresponding modulus.
-/

namespace RtMidi

/-- A completed MIDI message: the byte sequence plus the delta time stamp
(`MidiInApi::MidiMessage` with `bytes` and `timeStamp`). -/
structure MidiMessage where
  bytes : List Nat
  timeStamp : Rat
deriving DecidableEq, Repr

/-- The default-constructed `MidiMessage`: empty bytes, zero time stamp. -/
def defaultMessage : MidiMessage := ⟨[], 0⟩

/-- The input ring buffer `MidiInApi::MidiQueue`: slot array `ring` of
length `ringSize`, with `front` (next slot to pop), `back` (next slot to
push) and `size` (occupied count). -/
structure MidiQueue where
  ring : List MidiMessage
  ringSize : Nat
  front : Nat
  back : Nat
  size : Nat
deriving DecidableEq, Repr

/-- The producer-side push, as written identically in `midiInputCallback`
(WinMM), `alsaMidiHandler` and `jackProcessIn`:
`if (size < ringSize) { ring[back++] = message; if (back == ringSize) back = 0; size++; }
else <queue-limit diagnostic>`.
The Bool records which branch ran: `true` when the message was stored,
`false` when the queue-full diagnostic path was taken. -/
def MidiQueue.push (q : MidiQueue) (m : MidiMessage) : Bool × MidiQueue :=
  if q.size < q.ringSize then
    (true,
     { q with
        ring := q.ring.set q.back m,
        back := if q.back + 1 = q.ringSize then 0 else q.back + 1,
        size := q.size + 1 })
  else
    (false, q)

/-- The consumer-side pop, from `MidiInApi::getMessage`:
return nothing when `size == 0`; otherwise copy the slot at `front`,
then `size--; front++; if (front == ringSize) front = 0;` and return the
message bytes together with its delta time. -/
def MidiQueue.pop (q : MidiQueue) : Option (List Nat × Rat) × MidiQueue :=
  if q.size = 0 then (none, q)
  else
    (some ((q.ring.getD q.front defaultMessage).bytes,
           (q.ring.getD q.front defaultMessage).timeStamp),
     { q with
        size := q.size - 1,
        front := if q.front + 1 = q.ringSize then 0 else q.front + 1 })

/-- The queue as allocated by the `MidiInApi` constructor: `ringSize`
default-constructed slots and an empty state. -/
def emptyQueue (c : Nat) : MidiQueue :=
  { ring := List.replicate c defaultMessage, ringSize := c, front := 0, back := 0, size := 0 }

/-- Push a whole list of messages in order (repeated producer callbacks). -/
def pushAll (q : MidiQueue) (ms : List MidiMessage) : MidiQueue :=
  ms.foldl (fun acc m => (acc.push m).2) q

/-- Pop `n` times in order (repeated `getMessage` calls), collecting the
returned (bytes, delta) pairs. -/
def popAll : MidiQueue → Nat → List (List Nat × Rat) × MidiQueue
  | q, 0 => ([], q)
  | q, n + 1 =>
    (((q.pop).1).toList ++ (popAll (q.pop).2 n).1, (popAll (q.pop).2 n).2)

/-- The structural queue invariant named by the spec: occupancy bounded
by capacity and both cursors valid indices. -/
def QueueInvariant (q : MidiQueue) : Prop :=
  q.size ≤ q.ringSize ∧ q.front < q.ringSize ∧ q.back < q.ringSize

/-- Strengthened well-formedness used for the round-trip proof: slot
array length matches the capacity and `back` sits `size` slots past
`front` modulo the capacity. -/
def MidiQueue.WF (q : MidiQueue) : Prop :=
  q.ring.length = q.ringSize ∧ q.size ≤ q.ringSize ∧ q.front < q.ringSize ∧
    q.back = (q.front + q.size) % q.ringSize

/-- Abstraction of the ring buffer contents to the FIFO list it holds,
reading `size` slots starting at `front` modulo the capacity. -/
def MidiQueue.toList (q : MidiQueue) : List MidiMessage :=
  (List.range q.size).map fun i => q.ring.getD ((q.front + i) % q.ringSize) defaultMessage

/-- Unsigned machine subtraction `a - b` at modulus `m` (DWORD with
`m = 2^32`, unsigned long long with `m = 2^64`): wraps around instead of
going negative. -/
def wrapSub (m a b : Nat) : Nat := (a + m - b % m) % m

/-- The `inputStatus` values `midiInputCallback` distinguishes:
`MIM_DATA`, `MIM_LONGDATA`, `MIM_LONGERROR`, and everything else, which
the callback ignores at entry. -/
inductive WinStatus
  | mimData | mimLongData | mimLongError | mimOther
deriving DecidableEq, Repr

/-- The state `midiInputCallback` reads and writes:
`RtMidiInData::firstMessage` and `ignoreFlags`, `WinMidiData::lastTime`
(a DWORD) and the accumulating `WinMidiData::message.bytes`. -/
structure WinInState where
  firstMessage : Bool
  ignoreFlags : Nat
  lastTime : Nat
  messageBytes : List Nat
deriving DecidableEq, Repr

/-- The MIM_DATA byte-count table of `midiInputCallback`: `none` encodes
the early `return` branches (filtered 0xF1 / 0xF8 / 0xFE), `some n` the
number of bytes copied out of the packed DWORD. -/
def winNumBytes (status flags : Nat) : Option Nat :=
  if status < 192 then some 3
  else if status < 224 then some 2
  else if status < 240 then some 3
  else if status = 241 then (if flags &&& 2 ≠ 0 then none else some 2)
  else if status = 242 then some 3
  else if status = 243 then some 2
  else if status = 248 ∧ flags &&& 2 ≠ 0 then none
  else if status = 254 ∧ flags &&& 4 ≠ 0 then none
  else some 1

/-- One invocation of the WinMM `midiInputCallback`, yielding the message
dispatched to the callback or queue (if any) and the updated state.
`midiMessage` is the packed DWORD of a short message, `sysexBytes` the
`dwBytesRecorded` bytes of the sysex buffer for the long cases, and
`timestamp` the native DWORD millisecond clock. The time stamp block runs
before any filtering; the long-message buffer requeueing is an external
driver effect and carries no state of this model. -/
def winmmCallback (inputStatus : WinStatus) (s : WinInState) (midiMessage : Nat)
    (sysexBytes : List Nat) (timestamp : Nat) : Option MidiMessage × WinInState :=
  if inputStatus = .mimOther then (none, s)
  else
    let delta : Rat := if s.firstMessage then 0
      else (wrapSub 4294967296 timestamp s.lastTime : Nat) * (1 / 1000)
    let s1 : WinInState := ⟨false, s.ignoreFlags, timestamp, s.messageBytes⟩
    if inputStatus = .mimData then
      let status := midiMessage % 256
      if status &&& 128 = 0 then (none, s1)
      else
        match winNumBytes status s.ignoreFlags with
        | none => (none, s1)
        | some n =>
          (some ⟨s1.messageBytes ++ (List.range n).map (fun i => midiMessage / 256 ^ i % 256), delta⟩,
           ⟨false, s.ignoreFlags, timestamp, []⟩)
    else
      let collected := if s.ignoreFlags &&& 1 = 0 ∧ inputStatus ≠ .mimLongError
        then s1.messageBytes ++ sysexBytes else s1.messageBytes
      if 0 < sysexBytes.length then
        if s.ignoreFlags &&& 1 ≠ 0 then (none, ⟨false, s.ignoreFlags, timestamp, collected⟩)
        else (some ⟨collected, delta⟩, ⟨false, s.ignoreFlags, timestamp, []⟩)
      else (none, ⟨false, s.ignoreFlags, timestamp, collected⟩)

/-- The ALSA sequencer event types `alsaMidiHandler` distinguishes:
the port-subscription notices (no decode), the filterable realtime and
sensing types, sysex, and the default (decoded) case. -/
inductive AlsaEventType
  | portNotice | qframe | tick | clock | sensing | sysex | otherEvent
deriving DecidableEq, Repr

/-- One ALSA sequencer event as seen by `alsaMidiHandler`: its type tag,
the bytes `snd_midi_event_decode` would produce for it, and the
`ev->time.time` value (seconds and nanoseconds). -/
structure AlsaEvent where
  type : AlsaEventType
  bytes : List Nat
  timeSec : Nat
  timeNsec : Nat
deriving DecidableEq, Repr

/-- The native microsecond time of an ALSA event:
`(tv_sec * 1000000) + (tv_nsec / 1000)`. -/
def AlsaEvent.time (ev : AlsaEvent) : Nat := ev.timeSec * 1000000 + ev.timeNsec / 1000

/-- The per-iteration state of the `alsaMidiHandler` loop: the
`continueSysex` flag, the accumulating `message.bytes`, the backend
clock baseline `AlsaMidiData::lastTime` and `RtMidiInData::firstMessage`. -/
structure AlsaState where
  continueSysex : Bool
  messageBytes : List Nat
  lastTime : Nat
  firstMessage : Bool
deriving DecidableEq, Repr

/-- The `doDecode` decision of the `alsaMidiHandler` switch: subscription
notices never decode; QFRAME/TICK/CLOCK decode unless the timing ignore
bit (0x02) is set; SENSING decodes unless the sensing ignore bit (0x04)
is set; SYSEX breaks out when the sysex ignore bit (0x01) is set and
otherwise falls through to the default, which decodes. -/
def alsaDoDecode (flags : Nat) (t : AlsaEventType) : Bool :=
  match t with
  | .portNotice => false
  | .qframe => flags &&& 2 == 0
  | .tick => flags &&& 2 == 0
  | .clock => flags &&& 2 == 0
  | .sensing => flags &&& 4 == 0
  | .sysex => flags &&& 1 == 0
  | .otherEvent => true

/-- One iteration of the `alsaMidiHandler` event loop on a single
sequencer event: clear the accumulation unless a sysex continues, decode
if permitted, append the decoded bytes, recompute `continueSysex` from
the trailing byte, and on completion stamp the message (first message
keeps `timeStamp` 0.0) and update `lastTime`; the completed message is
dispatched unless empty. -/
def alsaStep (flags : Nat) (s : AlsaState) (ev : AlsaEvent) : Option MidiMessage × AlsaState :=
  let bytes0 := if s.continueSysex then s.messageBytes else []
  if alsaDoDecode flags ev.type = true ∧ ev.bytes ≠ [] then
    let newBytes := bytes0 ++ ev.bytes
    if ev.type = .sysex ∧ newBytes.getLast? ≠ some 247 then
      (none, ⟨true, newBytes, s.lastTime, s.firstMessage⟩)
    else
      let delta : Rat := if s.firstMessage then 0
        else (wrapSub 18446744073709551616 ev.time s.lastTime : Nat) * (1 / 1000000)
      (some ⟨newBytes, delta⟩, ⟨false, newBytes, ev.time, false⟩)
  else
    (none, ⟨s.continueSysex, bytes0, s.lastTime, s.firstMessage⟩)

/-- Feed a list of ALSA events in order, collecting the dispatched
messages (the handler loop run over a finite event stream). -/
def alsaFeedAll (flags : Nat) : AlsaState → List AlsaEvent → List MidiMessage × AlsaState
  | s, [] => ([], s)
  | s, ev :: evs =>
    (((alsaStep flags s ev).1).toList ++ (alsaFeedAll flags (alsaStep flags s ev).2 evs).1,
     (alsaFeedAll flags (alsaStep flags s ev).2 evs).2)

/-- The state `jackProcessIn` reads and writes per connection:
`RtMidiInData::firstMessage` and `continueSysex`, and
`JackMidiData::lastTime` (a `jack_time_t`, microseconds, 64-bit). -/
structure JackState where
  firstMessage : Bool
  continueSysex : Bool
  lastTime : Nat
deriving DecidableEq, Repr

/-- One JACK midi event processed by `jackProcessIn`: copy the event
bytes into a fresh message, compute the delta from `jack_get_time()`
(first message keeps the constructor default `timeStamp` of 0.0, a value
the missing RtMidi.h header supplies; the spec fixes it as zero),
update `lastTime` unconditionally, and dispatch unless `continueSysex`
is set. -/
def jackProcessEvent (s : JackState) (bytes : List Nat) (time : Nat) :
    Option MidiMessage × JackState :=
  let delta : Rat := if s.firstMessage then 0
    else (wrapSub 18446744073709551616 time s.lastTime : Nat) * (1 / 1000000)
  (if s.continueSysex then none else some ⟨bytes, delta⟩,
   ⟨false, s.continueSysex, time⟩)

/-- The error types referenced by the source (`RtMidiError::Type`; the
enum itself lives in the missing RtMidi.h header, its constants appear
throughout the source). -/
inductive RtMidiErrorType
  | warning | debugWarning | unspecified | noDevicesFound | invalidDevice
  | memoryError | invalidParameter | invalidUse | driverError | systemError | threadError
deriving DecidableEq, Repr

/-- Observable outcome of one `MidiApi::error` call: delivered to the
registered callback, suppressed (nested call while the callback runs),
returned normally after printing a warning, or thrown as an
`RtMidiError` carrying the string and type. -/
inductive ErrorOutcome
  | callbackInvoked (t : RtMidiErrorType) (msg : String)
  | suppressed
  | warned
  | thrown (t : RtMidiErrorType) (msg : String)
deriving DecidableEq, Repr

/-- `MidiApi::error`: with a registered callback, a call made while
`firstErrorOccurred_` is set (i.e. re-entrantly from inside the callback)
returns at once; otherwise the flag is set, the callback is invoked, and
the flag is cleared before returning. Without a callback, WARNING and
DEBUG_WARNING print and return, and every other type throws
`RtMidiError(errorString, type)`. The returned Bool is the
`firstErrorOccurred_` value after the call. -/
def MidiApi.errorCall (hasErrorCallback firstErrorOccurred : Bool)
    (t : RtMidiErrorType) (msg : String) : ErrorOutcome × Bool :=
  if hasErrorCallback then
    if firstErrorOccurred then (.suppressed, firstErrorOccurred)
    else (.callbackInvoked t msg, false)
  else if t = .warning then (.warned, firstErrorOccurred)
  else if t = .debugWarning then (.warned, firstErrorOccurred)
  else (.thrown t msg, firstErrorOccurred)

/-! ### Helper lemmas for the ring buffer -/

theorem getD_set_self {l : List MidiMessage} {i : Nat} {a : MidiMessage} (h : i < l.length) :
    (l.set i a).getD i defaultMessage = a := by
  simp [List.getD_eq_getElem?_getD, List.getElem?_set_eq_of_lt a h]

theorem getD_set_ne {l : List MidiMessage} {i j : Nat} {a : MidiMessage} (h : i ≠ j) :
    (l.set i a).getD j defaultMessage = l.getD j defaultMessage := by
  simp [List.getD_eq_getElem?_getD, List.getElem?_set_ne h]

theorem mod_index_ne {c f i s : Nat} (hi : i < s) (hs : s < c) :
    (f + i) % c ≠ (f + s) % c := by
  intro h
  have h2 : i ≡ s [MOD c] := Nat.ModEq.add_left_cancel' f h
  have h3 : c ∣ s - i := (Nat.modEq_iff_dvd' (Nat.le_of_lt hi)).mp h2
  have h4 : c ≤ s - i := Nat.le_of_dvd (by omega) h3
  omega

theorem toList_length (q : MidiQueue) : q.toList.length = q.size := by
  simp [MidiQueue.toList]

theorem push_toList {q : MidiQueue} {m : MidiMessage} (hwf : q.WF) (hlt : q.size < q.ringSize) :
    (q.push m).1 = true ∧ (q.push m).2.WF ∧ (q.push m).2.toList = q.toList ++ [m] := by
  obtain ⟨hlen, hsz, hf, hb⟩ := hwf
  have hc : 0 < q.ringSize := by omega
  have hblt : q.back < q.ringSize := by rw [hb]; exact Nat.mod_lt _ hc
  simp only [MidiQueue.push, if_pos hlt]
  have hback : (if q.back + 1 = q.ringSize then 0 else q.back + 1)
      = (q.front + (q.size + 1)) % q.ringSize := by
    have h1 : (if q.back + 1 = q.ringSize then 0 else q.back + 1) = (q.back + 1) % q.ringSize := by
      split
      · next hx => rw [hx, Nat.mod_self]
      · next hx => exact (Nat.mod_eq_of_lt (by omega)).symm
    rw [h1, hb, Nat.mod_add_mod]
    congr 1
  refine ⟨by trivial, ⟨?_, ?_, ?_, ?_⟩, ?_⟩
  · show (q.ring.set q.back m).length = q.ringSize
    simpa using hlen
  · show q.size + 1 ≤ q.ringSize
    omega
  · show q.front < q.ringSize
    exact hf
  · exact hback
  show (List.range (q.size + 1)).map
      (fun i => (q.ring.set q.back m).getD ((q.front + i) % q.ringSize) defaultMessage)
    = q.toList ++ [m]
  rw [List.range_succ, List.map_append]
  congr 1
  · refine List.map_congr_left fun i hi => ?_
    have hi' : i < q.size := List.mem_range.mp hi
    refine getD_set_ne ?_
    rw [hb]
    exact (mod_index_ne hi' hlt).symm
  · have hidx : (q.front + q.size) % q.ringSize = q.back := hb.symm
    simp only [List.map_cons, List.map_nil, hidx]
    rw [getD_set_self (by omega)]

theorem pop_toList {q : MidiQueue} (hwf : q.WF) (hpos : 0 < q.size) :
    (q.pop).1 = some ((q.ring.getD q.front defaultMessage).bytes,
                      (q.ring.getD q.front defaultMessage).timeStamp) ∧
    (q.pop).2.WF ∧
    q.toList = q.ring.getD q.front defaultMessage :: (q.pop).2.toList := by
  obtain ⟨hlen, hsz, hf, hb⟩ := hwf
  have hc : 0 < q.ringSize := by omega
  simp only [MidiQueue.pop, if_neg (by omega : ¬ q.size = 0)]
  have hfront : (if q.front + 1 = q.ringSize then 0 else q.front + 1)
      = (q.front + 1) % q.ringSize := by
    split
    · next hx => rw [hx, Nat.mod_self]
    · next hx => exact (Nat.mod_eq_of_lt (by omega)).symm
  refine ⟨by trivial, ⟨?_, ?_, ?_, ?_⟩, ?_⟩
  · show q.ring.length = q.ringSize
    exact hlen
  · show q.size - 1 ≤ q.ringSize
    omega
  · show (if q.front + 1 = q.ringSize then 0 else q.front + 1) < q.ringSize
    rw [hfront]
    exact Nat.mod_lt _ hc
  · show q.back = ((if q.front + 1 = q.ringSize then 0 else q.front + 1) + (q.size - 1)) % q.ringSize
    rw [hfront, Nat.mod_add_mod, hb]
    congr 1
    omega
  · have hmain : ∀ j, ((if q.front + 1 = q.ringSize then 0 else q.front + 1) + j) % q.ringSize
        = (q.front + (j + 1)) % q.ringSize := by
      intro j
      rw [hfront, Nat.mod_add_mod]
      congr 1
      omega
    obtain ⟨k, hk⟩ : ∃ k, q.size = k + 1 := ⟨q.size - 1, by omega⟩
    show (List.range q.size).map
        (fun i => q.ring.getD ((q.front + i) % q.ringSize) defaultMessage)
      = q.ring.getD q.front defaultMessage
        :: (List.range (q.size - 1)).map
          (fun i => q.ring.getD
            (((if q.front + 1 = q.ringSize then 0 else q.front + 1) + i) % q.ringSize)
            defaultMessage)
    rw [hk, Nat.add_sub_cancel, List.range_succ_eq_map, List.map_cons, List.map_map]
    congr 1
    · simp [Nat.mod_eq_of_lt hf]
    · refine List.map_congr_left fun i _ => ?_
      show q.ring.getD ((q.front + Nat.succ i) % q.ringSize) defaultMessage
        = q.ring.getD
            (((if q.front + 1 = q.ringSize then 0 else q.front + 1) + i) % q.ringSize)
            defaultMessage
      rw [hmain i]

theorem pushAll_toList : ∀ (ms : List MidiMessage) (q : MidiQueue), q.WF →
    q.size + ms.length ≤ q.ringSize →
    (pushAll q ms).WF ∧ (pushAll q ms).toList = q.toList ++ ms := by
  intro ms
  induction ms with
  | nil =>
    intro q hwf _
    exact ⟨hwf, by simp [pushAll]⟩
  | cons m rest ih =>
    intro q hwf hlen
    have hlt : q.size < q.ringSize := by
      simp only [List.length_cons] at hlen
      omega
    obtain ⟨_, hwf', htl⟩ := push_toList (m := m) hwf hlt
    have hsz : (q.push m).2.size = q.size + 1 := by
      simp [MidiQueue.push, if_pos hlt]
    have hrs : (q.push m).2.ringSize = q.ringSize := by
      simp [MidiQueue.push, if_pos hlt]
    have hstep : pushAll q (m :: rest) = pushAll (q.push m).2 rest := by
      simp [pushAll]
    rw [hstep]
    obtain ⟨hwf2, htl2⟩ := ih (q.push m).2 hwf' (by
      rw [hsz, hrs]
      simp only [List.length_cons] at hlen
      omega)
    exact ⟨hwf2, by rw [htl2, htl]; simp⟩

theorem popAll_toList : ∀ (ms : List MidiMessage) (q : MidiQueue), q.WF →
    q.toList = ms →
    (popAll q ms.length).1 = ms.map (fun m => (m.bytes, m.timeStamp)) := by
  intro ms
  induction ms with
  | nil =>
    intro q _ _
    simp [popAll]
  | cons m rest ih =>
    intro q hwf htl
    have hpos : 0 < q.size := by
      have := toList_length q
      rw [htl] at this
      simp only [List.length_cons] at this
      omega
    obtain ⟨h1, hwf', hdec⟩ := pop_toList hwf hpos
    rw [htl] at hdec
    have hm : q.ring.getD q.front defaultMessage = m := (List.cons.injEq _ _ _ _).mp hdec.symm |>.1
    have hrest : (q.pop).2.toList = rest := ((List.cons.injEq _ _ _ _).mp hdec.symm).2
    show ((q.pop).1.toList ++ (popAll (q.pop).2 rest.length).1) = _
    rw [h1, hm, ih (q.pop).2 hwf' hrest]
    simp

/-! ### Claim theorems for the input queue -/

/-- C1: for every queue of capacity C and every sequence of N ≤ C
messages, pushing the N messages into an initially empty InputQueue and
then popping N times returns exactly those messages in FIFO order, each
with bytes and delta time equal to what was pushed. -/
theorem c1_queue_roundtrip (c : Nat) (ms : List MidiMessage) (h : ms.length ≤ c) :
    (popAll (pushAll (emptyQueue c) ms) ms.length).1
      = ms.map (fun m => (m.bytes, m.timeStamp)) := by
  rcases Nat.eq_zero_or_pos c with hc | hc
  · subst hc
    have hnil : ms = [] := List.length_eq_zero.mp (Nat.le_zero.mp h)
    subst hnil
    simp [pushAll, popAll]
  · have hwf : (emptyQueue c).WF := by
      refine ⟨by simp [emptyQueue], by simp [emptyQueue], by simpa [emptyQueue] using hc,
        by simp [emptyQueue]⟩
    have h0 : (emptyQueue c).toList = [] := by simp [MidiQueue.toList, emptyQueue]
    obtain ⟨hwf', htl⟩ := pushAll_toList ms (emptyQueue c) hwf (by simpa [emptyQueue] using h)
    exact popAll_toList ms _ hwf' (by rw [htl, h0]; simp)

/-- Witness for C1 at capacity 2 with two concrete messages. -/
theorem c1_queue_roundtrip_witness :
    (popAll (pushAll (emptyQueue 2) [⟨[144, 60, 100], 0⟩, ⟨[128, 60, 0], 3⟩]) 2).1
      = [⟨[144, 60, 100], 0⟩, ⟨[128, 60, 0], 3⟩].map
          (fun m : MidiMessage => (m.bytes, m.timeStamp)) :=
  c1_queue_roundtrip 2 [⟨[144, 60, 100], 0⟩, ⟨[128, 60, 0], 3⟩] (by decide)

/-- C2: a push against a queue whose size equals its capacity takes the
refusal branch (the queue-full diagnostic) and mutates nothing: size,
front, back and all slot contents are untouched. -/
theorem c2_push_full (q : MidiQueue) (m : MidiMessage) (h : q.size = q.ringSize) :
    q.push m = (false, q) := by
  simp [MidiQueue.push, h]

/-- Witness for C2 on a concrete full queue of capacity 1. -/
theorem c2_push_full_witness :
    MidiQueue.push ⟨[⟨[1], 0⟩], 1, 0, 0, 1⟩ ⟨[2], 0⟩ = (false, ⟨[⟨[1], 0⟩], 1, 0, 0, 1⟩) :=
  c2_push_full ⟨[⟨[1], 0⟩], 1, 0, 0, 1⟩ ⟨[2], 0⟩ rfl

/-- C3: a pop on a queue with size 0 returns nothing immediately (the
embedded `getMessage` is a straight-line total function with no wait)
and leaves the entire queue state unchanged. -/
theorem c3_pop_empty (q : MidiQueue) (h : q.size = 0) :
    q.pop = (none, q) := by
  simp [MidiQueue.pop, h]

/-- Witness for C3 on a concrete empty queue of capacity 3. -/
theorem c3_pop_empty_witness : (emptyQueue 3).pop = (none, emptyQueue 3) :=
  c3_pop_empty (emptyQueue 3) rfl

/-- C4: push and pop preserve the queue invariant 0 ≤ size ≤ C with
front and back valid indices below C, and a full queue's slots are never
overwritten. -/
theorem c4_invariant_preserved (q : MidiQueue) (m : MidiMessage) (h : QueueInvariant q) :
    QueueInvariant (q.push m).2 ∧ QueueInvariant (q.pop).2 ∧
      (q.size = q.ringSize → (q.push m).2.ring = q.ring) := by
  obtain ⟨h1, h2, h3⟩ := h
  refine ⟨?_, ?_, ?_⟩
  · by_cases hlt : q.size < q.ringSize
    · simp only [MidiQueue.push, if_pos hlt]
      refine ⟨?_, ?_, ?_⟩
      · show q.size + 1 ≤ q.ringSize
        omega
      · show q.front < q.ringSize
        exact h2
      · show (if q.back + 1 = q.ringSize then 0 else q.back + 1) < q.ringSize
        split <;> omega
    · simp only [MidiQueue.push, if_neg hlt]
      exact ⟨h1, h2, h3⟩
  · by_cases hz : q.size = 0
    · simp only [MidiQueue.pop, if_pos hz]
      exact ⟨h1, h2, h3⟩
    · simp only [MidiQueue.pop, if_neg hz]
      refine ⟨?_, ?_, ?_⟩
      · show q.size - 1 ≤ q.ringSize
        omega
      · show (if q.front + 1 = q.ringSize then 0 else q.front + 1) < q.ringSize
        split <;> omega
      · show q.back < q.ringSize
        exact h3
  · intro hfull
    simp [MidiQueue.push, hfull]

/-- Witness for C4 on a concrete queue of capacity 2 holding one message. -/
theorem c4_invariant_preserved_witness :
    QueueInvariant ((MidiQueue.push ⟨[⟨[1], 0⟩, ⟨[], 0⟩], 2, 0, 1, 1⟩ ⟨[2], 0⟩).2) ∧
    QueueInvariant ((MidiQueue.pop ⟨[⟨[1], 0⟩, ⟨[], 0⟩], 2, 0, 1, 1⟩).2) ∧
      ((1 : Nat) = 2 → ((MidiQueue.push ⟨[⟨[1], 0⟩, ⟨[], 0⟩], 2, 0, 1, 1⟩ ⟨[2], 0⟩).2).ring
        = [⟨[1], 0⟩, ⟨[], 0⟩]) :=
  c4_invariant_preserved ⟨[⟨[1], 0⟩, ⟨[], 0⟩], 2, 0, 1, 1⟩ ⟨[2], 0⟩
    ⟨by decide, by decide, by decide⟩

/-! ### Branch equations for the WinMM callback and the ALSA handler -/

theorem winmm_eq_other (s : WinInState) (mm : Nat) (sx : List Nat) (t : Nat) :
    winmmCallback .mimOther s mm sx t = (none, s) := by
  dsimp only [winmmCallback]
  rw [if_pos rfl]

theorem winmm_eq_data_invalid (s : WinInState) (mm : Nat) (sx : List Nat) (t : Nat)
    (h : mm % 256 &&& 128 = 0) :
    winmmCallback .mimData s mm sx t = (none, ⟨false, s.ignoreFlags, t, s.messageBytes⟩) := by
  dsimp only [winmmCallback]
  rw [if_neg (by decide), if_pos rfl, if_pos h]

theorem winmm_eq_data_filtered (s : WinInState) (mm : Nat) (sx : List Nat) (t : Nat)
    (h : ¬ mm % 256 &&& 128 = 0) (hw : winNumBytes (mm % 256) s.ignoreFlags = none) :
    winmmCallback .mimData s mm sx t = (none, ⟨false, s.ignoreFlags, t, s.messageBytes⟩) := by
  dsimp only [winmmCallback]
  rw [if_neg (by decide), if_pos rfl, if_neg h, hw]

theorem winmm_eq_data_emit (s : WinInState) (mm : Nat) (sx : List Nat) (t : Nat) (n : Nat)
    (h : ¬ mm % 256 &&& 128 = 0) (hw : winNumBytes (mm % 256) s.ignoreFlags = some n) :
    winmmCallback .mimData s mm sx t =
      (some ⟨s.messageBytes ++ (List.range n).map (fun i => mm / 256 ^ i % 256),
             if s.firstMessage then 0
             else (wrapSub 4294967296 t s.lastTime : Nat) * (1 / 1000)⟩,
       ⟨false, s.ignoreFlags, t, []⟩) := by
  dsimp only [winmmCallback]
  rw [if_neg (by decide), if_pos rfl, if_neg h, hw]

theorem winmm_eq_long (st : WinStatus) (s : WinInState) (mm : Nat) (sx : List Nat) (t : Nat)
    (h1 : ¬ st = .mimOther) (h2 : ¬ st = .mimData) :
    winmmCallback st s mm sx t =
      (let collected := if s.ignoreFlags &&& 1 = 0 ∧ st ≠ .mimLongError
          then s.messageBytes ++ sx else s.messageBytes
       if 0 < sx.length then
         if s.ignoreFlags &&& 1 ≠ 0 then (none, ⟨false, s.ignoreFlags, t, collected⟩)
         else (some ⟨collected, if s.firstMessage then 0
                  else (wrapSub 4294967296 t s.lastTime : Nat) * (1 / 1000)⟩,
               ⟨false, s.ignoreFlags, t, []⟩)
       else (none, ⟨false, s.ignoreFlags, t, collected⟩)) := by
  dsimp only [winmmCallback]
  rw [if_neg h1, if_neg h2]

theorem winmm_state_update (st : WinStatus) (s : WinInState) (mm : Nat) (sx : List Nat) (t : Nat)
    (hst : ¬ st = .mimOther) :
    ((winmmCallback st s mm sx t).2).lastTime = t ∧
      ((winmmCallback st s mm sx t).2).firstMessage = false := by
  cases st
  case mimOther => exact absurd rfl hst
  case mimData =>
    by_cases h : mm % 256 &&& 128 = 0
    · rw [winmm_eq_data_invalid s mm sx t h]
      exact ⟨rfl, rfl⟩
    · cases hw : winNumBytes (mm % 256) s.ignoreFlags with
      | none =>
        rw [winmm_eq_data_filtered s mm sx t h hw]
        exact ⟨rfl, rfl⟩
      | some n =>
        rw [winmm_eq_data_emit s mm sx t n h hw]
        exact ⟨rfl, rfl⟩
  all_goals
    rw [winmm_eq_long _ s mm sx t (by decide) (by decide)]
    dsimp only
    split
    · split
      · exact ⟨rfl, rfl⟩
      · exact ⟨rfl, rfl⟩
    · exact ⟨rfl, rfl⟩

theorem winmm_emit_timeStamp {st : WinStatus} {s : WinInState} {mm : Nat} {sx : List Nat}
    {t : Nat} {m : MidiMessage} (hm : (winmmCallback st s mm sx t).1 = some m) :
    m.timeStamp = if s.firstMessage then (0 : Rat)
      else (wrapSub 4294967296 t s.lastTime : Nat) * (1 / 1000) := by
  cases st
  case mimOther =>
    rw [winmm_eq_other] at hm
    simp at hm
  case mimData =>
    by_cases h : mm % 256 &&& 128 = 0
    · rw [winmm_eq_data_invalid s mm sx t h] at hm
      simp at hm
    · cases hw : winNumBytes (mm % 256) s.ignoreFlags with
      | none =>
        rw [winmm_eq_data_filtered s mm sx t h hw] at hm
        simp at hm
      | some n =>
        rw [winmm_eq_data_emit s mm sx t n h hw] at hm
        obtain rfl := Option.some.inj hm
        rfl
  all_goals
    rw [winmm_eq_long _ s mm sx t (by decide) (by decide)] at hm
    dsimp only at hm
    split at hm
    next =>
      split at hm
      next => simp at hm
      next =>
        obtain rfl := Option.some.inj hm
        rfl
    next => simp at hm

theorem alsaStep_noDecode {flags : Nat} {s : AlsaState} {ev : AlsaEvent}
    (h : ¬ (alsaDoDecode flags ev.type = true ∧ ev.bytes ≠ [])) :
    alsaStep flags s ev =
      (none, ⟨s.continueSysex, if s.continueSysex then s.messageBytes else [],
              s.lastTime, s.firstMessage⟩) := by
  dsimp only [alsaStep]
  rw [if_neg h]

theorem alsaStep_continue {flags : Nat} {s : AlsaState} {ev : AlsaEvent}
    (h1 : alsaDoDecode flags ev.type = true) (h2 : ev.bytes ≠ [])
    (h3 : ev.type = .sysex)
    (h4 : ((if s.continueSysex then s.messageBytes else []) ++ ev.bytes).getLast? ≠ some 247) :
    alsaStep flags s ev =
      (none, ⟨true, (if s.continueSysex then s.messageBytes else []) ++ ev.bytes,
              s.lastTime, s.firstMessage⟩) := by
  dsimp only [alsaStep]
  rw [if_pos ⟨h1, h2⟩, if_pos ⟨h3, h4⟩]

theorem alsaStep_complete {flags : Nat} {s : AlsaState} {ev : AlsaEvent}
    (h1 : alsaDoDecode flags ev.type = true) (h2 : ev.bytes ≠ [])
    (h3 : ¬ (ev.type = .sysex ∧
        ((if s.continueSysex then s.messageBytes else []) ++ ev.bytes).getLast? ≠ some 247)) :
    alsaStep flags s ev =
      (some ⟨(if s.continueSysex then s.messageBytes else []) ++ ev.bytes,
             if s.firstMessage then 0
             else (wrapSub 18446744073709551616 ev.time s.lastTime : Nat) * (1 / 1000000)⟩,
       ⟨false, (if s.continueSysex then s.messageBytes else []) ++ ev.bytes, ev.time, false⟩) := by
  dsimp only [alsaStep]
  rw [if_pos ⟨h1, h2⟩, if_neg h3]

theorem alsa_emit_facts {flags : Nat} {s : AlsaState} {ev : AlsaEvent} {m : MidiMessage}
    (hm : (alsaStep flags s ev).1 = some m) :
    m.timeStamp = (if s.firstMessage then (0 : Rat)
        else (wrapSub 18446744073709551616 ev.time s.lastTime : Nat) * (1 / 1000000)) ∧
      ((alsaStep flags s ev).2).lastTime = ev.time ∧
      ((alsaStep flags s ev).2).firstMessage = false := by
  by_cases h1 : alsaDoDecode flags ev.type = true ∧ ev.bytes ≠ []
  · by_cases h2 : ev.type = .sysex ∧
        ((if s.continueSysex then s.messageBytes else []) ++ ev.bytes).getLast? ≠ some 247
    · rw [alsaStep_continue h1.1 h1.2 h2.1 h2.2] at hm
      simp at hm
    · rw [alsaStep_complete h1.1 h1.2 h2] at hm ⊢
      obtain rfl := Option.some.inj hm
      exact ⟨rfl, rfl, rfl⟩
  · rw [alsaStep_noDecode h1] at hm
    simp at hm

theorem alsaFeedAll_append (flags : Nat) : ∀ (l1 l2 : List AlsaEvent) (s : AlsaState),
    alsaFeedAll flags s (l1 ++ l2)
      = ((alsaFeedAll flags s l1).1 ++ (alsaFeedAll flags (alsaFeedAll flags s l1).2 l2).1,
         (alsaFeedAll flags (alsaFeedAll flags s l1).2 l2).2) := by
  intro l1
  induction l1 with
  | nil =>
    intro l2 s
    simp [alsaFeedAll]
  | cons e es ih =>
    intro l2 s
    simp [alsaFeedAll, ih, List.append_assoc]

theorem alsaFeed_midchunks (flags : Nat) : ∀ (evs : List AlsaEvent) (s : AlsaState),
    s.continueSysex = true → flags &&& 1 = 0 →
    (∀ ev ∈ evs, ev.type = .sysex ∧ ev.bytes ≠ [] ∧ ev.bytes.getLast? ≠ some 247) →
    (alsaFeedAll flags s evs).1 = [] ∧
      (alsaFeedAll flags s evs).2
        = ⟨true, s.messageBytes ++ ((evs.map AlsaEvent.bytes).flatten), s.lastTime,
            s.firstMessage⟩ := by
  intro evs
  induction evs with
  | nil =>
    intro s hs _ _
    refine ⟨rfl, ?_⟩
    show s = _
    cases s
    simp_all
  | cons e es ih =>
    intro s hs hf hall
    obtain ⟨ht, hne, hlast⟩ := hall e (by simp)
    have hdec : alsaDoDecode flags e.type = true := by
      rw [ht]
      simp [alsaDoDecode, hf]
    have hlast2 : ((if s.continueSysex then s.messageBytes else []) ++ e.bytes).getLast?
        ≠ some 247 := by
      rw [List.getLast?_append_of_ne_nil _ hne]
      exact hlast
    have hstep := alsaStep_continue (s := s) hdec hne ht hlast2
    rw [hs, if_pos rfl] at hstep
    obtain ⟨ih1, ih2⟩ := ih ⟨true, s.messageBytes ++ e.bytes, s.lastTime, s.firstMessage⟩ rfl hf
      (fun ev hev => hall ev (by simp [hev]))
    constructor
    · show ((alsaStep flags s e).1).toList ++ (alsaFeedAll flags (alsaStep flags s e).2 es).1 = []
      rw [hstep]
      simpa using ih1
    · show (alsaFeedAll flags (alsaStep flags s e).2 es).2 = _
      rw [hstep, ih2]
      simp [List.append_assoc]

theorem alsaFeed_midchunks_clear (flags : Nat) (evs : List AlsaEvent) (s : AlsaState)
    (hs : s.continueSysex = false) (hf : flags &&& 1 = 0)
    (hall : ∀ ev ∈ evs, ev.type = .sysex ∧ ev.bytes ≠ [] ∧ ev.bytes.getLast? ≠ some 247) :
    (alsaFeedAll flags s evs).1 = [] ∧
      (evs ≠ [] → (alsaFeedAll flags s evs).2
        = ⟨true, (evs.map AlsaEvent.bytes).flatten, s.lastTime, s.firstMessage⟩) := by
  cases evs with
  | nil => exact ⟨rfl, fun h => absurd rfl h⟩
  | cons e es =>
    obtain ⟨ht, hne, hlast⟩ := hall e (by simp)
    have hdec : alsaDoDecode flags e.type = true := by
      rw [ht]
      simp [alsaDoDecode, hf]
    have hif : (if s.continueSysex then s.messageBytes else []) = [] := by simp [hs]
    have hstep := alsaStep_continue (s := s) hdec hne ht (by
      rw [List.getLast?_append_of_ne_nil _ hne]
      exact hlast)
    rw [hif] at hstep
    simp only [List.nil_append] at hstep
    obtain ⟨hm1, hm2⟩ := alsaFeed_midchunks flags es ⟨true, e.bytes, s.lastTime, s.firstMessage⟩
      rfl hf (fun ev hev => hall ev (by simp [hev]))
    constructor
    · show ((alsaStep flags s e).1).toList ++ (alsaFeedAll flags (alsaStep flags s e).2 es).1 = []
      rw [hstep]
      simpa using hm1
    · intro _
      show (alsaFeedAll flags (alsaStep flags s e).2 es).2 = _
      rw [hstep, hm2]
      simp

/-! ### Claim theorems for stamping, filtering and error delivery -/

/-- C5: for a sysex message split across chunk fragments whose
concatenation ends in the terminator 0xF7 (each chunk nonempty, only the
final chunk ending in the terminator), the ALSA handler emits nothing
for the intermediate chunks and exactly one message when the chunk
carrying the terminator arrives, whose bytes are the concatenation of
all chunks in arrival order. -/
theorem c5_sysex_reassembly (flags : Nat) (s0 : AlsaState) (evs : List AlsaEvent)
    (evLast : AlsaEvent)
    (hflags : flags &&& 1 = 0) (hs0 : s0.continueSysex = false)
    (hmid : ∀ ev ∈ evs, ev.type = .sysex ∧ ev.bytes ≠ [] ∧ ev.bytes.getLast? ≠ some 247)
    (hlt : evLast.type = .sysex) (hlne : evLast.bytes ≠ [])
    (hlterm : evLast.bytes.getLast? = some 247) :
    ((alsaFeedAll flags s0 (evs ++ [evLast])).1).map MidiMessage.bytes
        = [((evs ++ [evLast]).map AlsaEvent.bytes).flatten] ∧
      ∀ k, k ≤ evs.length → (alsaFeedAll flags s0 ((evs ++ [evLast]).take k)).1 = [] := by
  have hdecl : alsaDoDecode flags evLast.type = true := by
    rw [hlt]
    simp [alsaDoDecode, hflags]
  have hterm2 : ∀ bs : List Nat,
      ¬ (evLast.type = .sysex ∧ (bs ++ evLast.bytes).getLast? ≠ some 247) := by
    intro bs hcon
    apply hcon.2
    rw [List.getLast?_append_of_ne_nil _ hlne]
    exact hlterm
  constructor
  · rw [alsaFeedAll_append flags evs [evLast] s0]
    obtain ⟨hm1, hm2⟩ := alsaFeed_midchunks_clear flags evs s0 hs0 hflags hmid
    by_cases hevs : evs = []
    · subst hevs
      have hif : (if s0.continueSysex then s0.messageBytes else []) = [] := by simp [hs0]
      have hcomp := alsaStep_complete (s := s0) hdecl hlne (by rw [hif]; exact hterm2 [])
      rw [hif] at hcomp
      simp only [alsaFeedAll]
      rw [hcomp]
      simp
    · have h2 := hm2 hevs
      rw [hm1, h2]
      have hcomp := alsaStep_complete
        (s := ⟨true, (evs.map AlsaEvent.bytes).flatten, s0.lastTime, s0.firstMessage⟩)
        hdecl hlne (hterm2 _)
      simp only [if_pos rfl] at hcomp
      simp only [alsaFeedAll]
      rw [hcomp]
      simp [List.flatten_append]
  · intro k hk
    rw [List.take_append_of_le_length hk]
    exact (alsaFeed_midchunks_clear flags (evs.take k) s0 hs0 hflags
      (fun ev hev => hmid ev (List.take_subset _ _ hev))).1

/-- Witness for C5: a two-chunk sysex [240, 1, 2] then [3, 247] yields
one message with the concatenated bytes, and feeding only the first
chunk yields nothing. -/
theorem c5_sysex_reassembly_witness :
    ((alsaFeedAll 0 ⟨false, [], 0, true⟩
          ([⟨.sysex, [240, 1, 2], 0, 0⟩] ++ [⟨.sysex, [3, 247], 0, 5000000⟩])).1).map
        MidiMessage.bytes
      = [(([(⟨.sysex, [240, 1, 2], 0, 0⟩ : AlsaEvent)] ++ [(⟨.sysex, [3, 247], 0, 5000000⟩ : AlsaEvent)]).map
          AlsaEvent.bytes).flatten] ∧
    (alsaFeedAll 0 ⟨false, [], 0, true⟩
        (([(⟨.sysex, [240, 1, 2], 0, 0⟩ : AlsaEvent)] ++ [(⟨.sysex, [3, 247], 0, 5000000⟩ : AlsaEvent)]).take
          1)).1 = [] :=
  ⟨(c5_sysex_reassembly 0 ⟨false, [], 0, true⟩ [⟨.sysex, [240, 1, 2], 0, 0⟩]
      ⟨.sysex, [3, 247], 0, 5000000⟩ rfl rfl (by decide) rfl (by decide) rfl).1,
   (c5_sysex_reassembly 0 ⟨false, [], 0, true⟩ [⟨.sysex, [240, 1, 2], 0, 0⟩]
      ⟨.sysex, [3, 247], 0, 5000000⟩ rfl rfl (by decide) rfl (by decide) rfl).2 1 (by decide)⟩

/-- C6: on a freshly created per-connection state (firstMessage still
set), the first completed message carries delta time exactly 0 whatever
the native timestamp, and that timestamp becomes the baseline for the
next delta — shown for the WinMM callback, the ALSA handler and the
JACK process callback. -/
theorem c6_first_message_zero_delta :
    (∀ (st : WinStatus) (s : WinInState) (mm : Nat) (sx : List Nat) (t : Nat) (m : MidiMessage),
        s.firstMessage = true → (winmmCallback st s mm sx t).1 = some m →
        m.timeStamp = 0 ∧ ((winmmCallback st s mm sx t).2).lastTime = t) ∧
    (∀ (flags : Nat) (s : AlsaState) (ev : AlsaEvent) (m : MidiMessage),
        s.firstMessage = true → (alsaStep flags s ev).1 = some m →
        m.timeStamp = 0 ∧ ((alsaStep flags s ev).2).lastTime = ev.time) ∧
    (∀ (s : JackState) (bs : List Nat) (time : Nat) (m : MidiMessage),
        s.firstMessage = true → (jackProcessEvent s bs time).1 = some m →
        m.timeStamp = 0 ∧ ((jackProcessEvent s bs time).2).lastTime = time) := by
  refine ⟨?_, ?_, ?_⟩
  · intro st s mm sx t m hfirst hm
    by_cases hst : st = .mimOther
    · subst hst
      rw [winmm_eq_other] at hm
      simp at hm
    · have h1 := winmm_emit_timeStamp hm
      rw [hfirst] at h1
      simp only [if_pos rfl] at h1
      exact ⟨by simpa using h1, (winmm_state_update st s mm sx t hst).1⟩
  · intro flags s ev m hfirst hm
    obtain ⟨h1, h2, _⟩ := alsa_emit_facts hm
    rw [hfirst] at h1
    simp only [if_pos rfl] at h1
    exact ⟨by simpa using h1, h2⟩
  · intro s bs time m hfirst hm
    dsimp only [jackProcessEvent] at hm ⊢
    rw [hfirst] at hm
    constructor
    · by_cases hc : s.continueSysex
      · rw [if_pos hc] at hm
        simp at hm
      · rw [if_neg hc] at hm
        obtain rfl := Option.some.inj hm
        rfl
    · rfl

/-- Witness for C6 at a concrete first fragment with native time 999. -/
theorem c6_first_message_zero_delta_witness :
    (⟨[144, 0, 0], 0⟩ : MidiMessage).timeStamp = 0 ∧
      ((winmmCallback .mimData ⟨true, 0, 0, []⟩ 144 [] 999).2).lastTime = 999 :=
  c6_first_message_zero_delta.1 .mimData ⟨true, 0, 0, []⟩ 144 [] 999 ⟨[144, 0, 0], 0⟩ rfl rfl

/-- C7 counterexample: in the WinMM callback with baseline `lastTime = 5`,
a message arriving at native time 3 (t2 < t1) is stamped with the wrapped
DWORD difference (2^32 - 2) milliseconds = 2147483647/500 seconds, not
with the claimed clamped value 0.0. -/
theorem c7_counterexample :
    ((winmmCallback .mimData ⟨false, 0, 5, []⟩ 144 [] 3).1).map MidiMessage.timeStamp
        = some ((wrapSub 4294967296 3 5 : Nat) * (1 / 1000 : Rat)) ∧
      wrapSub 4294967296 3 5 = 4294967294 ∧
      ¬ ((4294967294 : Nat) * (1 / 1000 : Rat) = 0) := by
  refine ⟨rfl, by norm_num [wrapSub], by norm_num⟩

/-- C7 amended: a non-first message is stamped with the unsigned wrapped
difference `wrapSub 2^32 t2 t1` times the 0.001 conversion factor; when
t1 ≤ t2 this equals (t2 - t1) × factor, and when t2 < t1 it equals the
wrapped value (t2 + 2^32 - t1) × factor, which is strictly positive, not
a clamped 0.0. -/
theorem c7_amended_wrapped_difference :
    (∀ (st : WinStatus) (s : WinInState) (mm : Nat) (sx : List Nat) (t : Nat) (m : MidiMessage),
        s.firstMessage = false → (winmmCallback st s mm sx t).1 = some m →
        m.timeStamp = (wrapSub 4294967296 t s.lastTime : Nat) * (1 / 1000 : Rat)) ∧
    (∀ t1 t2 : Nat, t1 ≤ t2 → t2 < 4294967296 → wrapSub 4294967296 t2 t1 = t2 - t1) ∧
    (∀ t1 t2 : Nat, t2 < t1 → t1 < 4294967296 →
        wrapSub 4294967296 t2 t1 = t2 + 4294967296 - t1 ∧ 0 < wrapSub 4294967296 t2 t1) := by
  refine ⟨?_, ?_, ?_⟩
  · intro st s mm sx t m hfirst hm
    have h1 := winmm_emit_timeStamp hm
    rw [hfirst] at h1
    simpa using h1
  · intro t1 t2 h1 h2
    simp only [wrapSub]
    omega
  · intro t1 t2 h1 h2
    constructor <;> (simp only [wrapSub]; omega)

/-- Witness for C7 amended: consecutive times 100 then 350 give delta
250 × 0.001 seconds; reversed times 3 after 5 give the wrapped positive
difference. -/
theorem c7_amended_wrapped_difference_witness :
    (⟨[144, 0, 0], (wrapSub 4294967296 350 100 : Nat) * (1 / 1000 : Rat)⟩
          : MidiMessage).timeStamp
        = (wrapSub 4294967296 350 100 : Nat) * (1 / 1000 : Rat) ∧
      wrapSub 4294967296 350 100 = 250 ∧
      (wrapSub 4294967296 3 5 = 3 + 4294967296 - 5 ∧ 0 < wrapSub 4294967296 3 5) :=
  ⟨c7_amended_wrapped_difference.1 .mimData ⟨false, 0, 100, []⟩ 144 [] 350
      ⟨[144, 0, 0], (wrapSub 4294967296 350 100 : Nat) * (1 / 1000 : Rat)⟩ rfl rfl,
   c7_amended_wrapped_difference.2.1 100 350 (by decide) (by decide),
   c7_amended_wrapped_difference.2.2 5 3 (by decide) (by decide)⟩

/-- C8 counterexample: in the ALSA handler with the timing ignore bit
set, a CLOCK event with native time 2000 is dropped and leaves
`lastTime` at the old baseline 1000 — the baseline is not updated to the
filtered message's timestamp. -/
theorem c8_counterexample :
    (alsaStep 2 ⟨false, [], 1000, false⟩ ⟨.clock, [248], 0, 2000000⟩).1 = none ∧
      ((alsaStep 2 ⟨false, [], 1000, false⟩ ⟨.clock, [248], 0, 2000000⟩).2).lastTime = 1000 ∧
      (⟨.clock, [248], 0, 2000000⟩ : AlsaEvent).time = 2000 ∧ (1000 : Nat) ≠ 2000 := by
  decide

/-- C8 amended: the WinMM callback updates `lastTime` to the fragment's
timestamp unconditionally for every processed fragment, including those
subsequently dropped by the ignore flags; the ALSA handler never decodes
an event suppressed by the ignore flags, emits nothing for it, and
leaves both `lastTime` and `firstMessage` unchanged, so the next
delivered delta is measured from the last completed message instead. -/
theorem c8_amended_baseline_update :
    (∀ (st : WinStatus) (s : WinInState) (mm : Nat) (sx : List Nat) (t : Nat),
        ¬ st = .mimOther → ((winmmCallback st s mm sx t).2).lastTime = t) ∧
    (∀ (flags : Nat) (s : AlsaState) (ev : AlsaEvent), alsaDoDecode flags ev.type = false →
        (alsaStep flags s ev).1 = none ∧
        ((alsaStep flags s ev).2).lastTime = s.lastTime ∧
        ((alsaStep flags s ev).2).firstMessage = s.firstMessage) := by
  refine ⟨fun st s mm sx t hst => (winmm_state_update st s mm sx t hst).1, ?_⟩
  intro flags s ev h
  rw [alsaStep_noDecode (by simp [h])]
  exact ⟨rfl, rfl, rfl⟩

/-- Witness for C8 amended: a timing-filtered 0xF8 fragment in WinMM
still sets the baseline to its timestamp 350; a timing-filtered CLOCK
event in ALSA leaves the baseline at 1000. -/
theorem c8_amended_baseline_update_witness :
    ((winmmCallback .mimData ⟨false, 2, 100, []⟩ 248 [] 350).2).lastTime = 350 ∧
      ((alsaStep 2 ⟨false, [], 1000, false⟩ ⟨.clock, [248], 0, 7000000⟩).1 = none ∧
        ((alsaStep 2 ⟨false, [], 1000, false⟩ ⟨.clock, [248], 0, 7000000⟩).2).lastTime = 1000 ∧
        ((alsaStep 2 ⟨false, [], 1000, false⟩ ⟨.clock, [248], 0, 7000000⟩).2).firstMessage
          = false) :=
  ⟨c8_amended_baseline_update.1 .mimData ⟨false, 2, 100, []⟩ 248 [] 350 (by decide),
   c8_amended_baseline_update.2 2 ⟨false, [], 1000, false⟩ ⟨.clock, [248], 0, 7000000⟩
     (by decide)⟩

/-- C9 counterexample: a MIM_DATA fragment whose first byte 0x40 has the
high bit unset yields no message, yet it consumes the `firstMessage`
flag (true becomes false) and moves `lastTime` from 0 to the fragment's
timestamp 777, contrary to the claim that both are left unchanged. -/
theorem c9_counterexample :
    winmmCallback .mimData ⟨true, 0, 0, []⟩ 64 [] 777 = (none, ⟨false, 0, 777, []⟩) ∧
      ((⟨true, 0, 0, []⟩ : WinInState).firstMessage ≠
        (⟨false, 0, 777, []⟩ : WinInState).firstMessage) ∧
      ((⟨true, 0, 0, []⟩ : WinInState).lastTime ≠
        (⟨false, 0, 777, []⟩ : WinInState).lastTime) := by
  decide

/-- C9 amended: a MIM_DATA fragment whose first byte is not a status
byte (high bit unset) yields no message and is not reported as an error,
but because the time stamp block runs before the status check, the
`firstMessage` flag is consumed and `lastTime` is set to the fragment's
timestamp; the accumulated message bytes are untouched. -/
theorem c9_amended_invalid_status (s : WinInState) (mm : Nat) (sx : List Nat) (t : Nat)
    (h : mm % 256 &&& 128 = 0) :
    winmmCallback .mimData s mm sx t = (none, ⟨false, s.ignoreFlags, t, s.messageBytes⟩) :=
  winmm_eq_data_invalid s mm sx t h

/-- Witness for C9 amended at byte 0x40 and timestamp 777. -/
theorem c9_amended_invalid_status_witness :
    winmmCallback .mimData ⟨true, 0, 0, []⟩ 64 [] 777 = (none, ⟨false, 0, 777, []⟩) :=
  c9_amended_invalid_status ⟨true, 0, 0, []⟩ 64 [] 777 (by decide)

/-- C10: `MidiApi::error` delivers to a registered callback and returns
normally; a nested call while the callback runs (firstErrorOccurred set)
is suppressed; without a callback, WARNING and DEBUG_WARNING return
normally and every other type throws an `RtMidiError` carrying the
string and type. -/
theorem c10_error_delivery (hasCb first : Bool) (t : RtMidiErrorType) (msg : String) :
    (hasCb = true → first = false →
        MidiApi.errorCall hasCb first t msg = (.callbackInvoked t msg, false)) ∧
    (hasCb = true → first = true →
        MidiApi.errorCall hasCb first t msg = (.suppressed, true)) ∧
    (hasCb = false → (t = .warning ∨ t = .debugWarning) →
        MidiApi.errorCall hasCb first t msg = (.warned, first)) ∧
    (hasCb = false → ¬ t = .warning → ¬ t = .debugWarning →
        MidiApi.errorCall hasCb first t msg = (.thrown t msg, first)) := by
  refine ⟨?_, ?_, ?_, ?_⟩
  · intro h1 h2
    subst h1; subst h2
    simp [MidiApi.errorCall]
  · intro h1 h2
    subst h1; subst h2
    simp [MidiApi.errorCall]
  · intro h1 h2
    subst h1
    rcases h2 with rfl | rfl <;> simp [MidiApi.errorCall]
  · intro h1 h2 h3
    subst h1
    simp [MidiApi.errorCall, h2, h3]

/-- Witness for C10 exercising all four branches at concrete inputs. -/
theorem c10_error_delivery_witness :
    (MidiApi.errorCall true false .driverError "boom"
        = (.callbackInvoked .driverError "boom", false)) ∧
      (MidiApi.errorCall true true .driverError "boom" = (.suppressed, true)) ∧
      (MidiApi.errorCall false false .warning "boom" = (.warned, false)) ∧
      (MidiApi.errorCall false false .driverError "boom"
        = (.thrown .driverError "boom", false)) :=
  ⟨(c10_error_delivery true false .driverError "boom").1 rfl rfl,
   (c10_error_delivery true true .driverError "boom").2.1 rfl rfl,
   (c10_error_delivery false false .warning "boom").2.2.1 rfl (Or.inl rfl),
   (c10_error_delivery false false .driverError "boom").2.2.2 rfl (by decide) (by decide)⟩

end RtMidi
